import Mathlib

/-!
Shallow embedding of the Synacor-challenge virtual machine and its
state-space explorer (src/vm.py).

Modelling conventions:
- Python ints holding 15/16-bit words are `Nat`; all wrapping is explicit
  (`% 32768`).
- `io.StringIO` reader is a buffer of character codes plus a read cursor
  (`reader`, `readerPos`); `Vm.input` reproduces the tell/write/seek dance
  of the source (write at the read cursor overwrites unread characters and
  extends at the end).  The writer is append-only between drains, so it is
  just a list of character codes.
- Fallible Python operations return `Except VmError _`.  The distinct
  Python exception classes are distinct constructors: `ValueError` from
  grab/val is `invalidNumber`, `IndexError` from `list.pop()` on an empty
  stack is `stackUnderflow`, `IndexError` from list indexing out of range
  is `indexError`, `ZeroDivisionError` is `zeroDivisionError`.
- The Python stack is kept in the same order as the source list: pushes
  append at the end, pops take the last element.
- `run` is a while loop; it gets explicit fuel and returns `none` when the
  fuel runs out before the loop exits.
-/

inductive State where
  | READY
  | HALTED
  | INPUT_BLOCKED
  deriving DecidableEq, Repr

inductive VmError where
  | invalidNumber (n : Nat)
  | stackUnderflow
  | indexError
  | zeroDivisionError
  deriving DecidableEq, Repr

structure Vm where
  memory : List Nat
  stack : List Nat
  ip : Nat
  state : State
  reader : List Nat
  readerPos : Nat
  writer : List Nat
  deriving DecidableEq, Repr

/-- Snapshot type: `(tuple(memory), tuple(stack), ip)`. -/
def Dump : Type := List Nat × List Nat × Nat

instance : DecidableEq Dump := by
  unfold Dump
  infer_instance

/-- `Vm.__init__`: fresh machine, status READY, empty reader and writer. -/
def Vm.mk0 (memory stack : List Nat) (ip : Nat) : Vm :=
  { memory := memory, stack := stack, ip := ip, state := State.READY,
    reader := [], readerPos := 0, writer := [] }

/-- Little-endian pairing of the bytes of the binary, as in
`int.from_bytes(f.read(2), byteorder="little")`; a trailing lone byte is
read as its own value. -/
def bytesToWords : List Nat → List Nat
  | [] => []
  | [b0] => [b0]
  | b0 :: b1 :: rest => (b0 + 256 * b1) :: bytesToWords rest

/-- `Vm.from_file`: load the words and zero-pad to `2^15 - len + 8` extra
cells (clamped at zero exactly as Python's list repetition clamps a
negative count). -/
def Vm.from_file (bytes : List Nat) : Vm :=
  let instructions := bytesToWords bytes
  let memory := instructions ++
    List.replicate ((2 ^ 15 - (instructions.length : Int) + 8).toNat) 0
  Vm.mk0 memory [] 0

/-- `Vm.from_dump`. -/
def Vm.from_dump (d : Dump) : Vm :=
  Vm.mk0 d.1 d.2.1 d.2.2

/-- `Vm.dump`. -/
def Vm.dump (vm : Vm) : Dump :=
  (vm.memory, vm.stack, vm.ip)

/-- `Vm.input`: remember the read position, write the new characters at
that position (StringIO write overwrites what is there and extends past
the end), seek back, and set the state to READY. -/
def Vm.input (vm : Vm) (s : List Nat) : Vm :=
  { vm with
    reader := vm.reader.take vm.readerPos ++ s ++
      vm.reader.drop (vm.readerPos + s.length),
    state := State.READY }

/-- `Vm.output`: drain the writer. -/
def Vm.output (vm : Vm) : List Nat × Vm :=
  (vm.writer, { vm with writer := [] })

/-- `Vm.grab`: read the raw word at ip (IndexError when out of range),
advance ip, and reject raw values above 32775. -/
def Vm.grab (vm : Vm) : Except VmError (Nat × Vm) :=
  match vm.memory.get? vm.ip with
  | none => .error VmError.indexError
  | some result =>
    if result ≤ 32775 then .ok (result, { vm with ip := vm.ip + 1 })
    else .error (VmError.invalidNumber result)

/-- Two consecutive grabs, as in Python `a, b = g(), g()`. -/
def Vm.grab2 (vm : Vm) : Except VmError (Nat × Nat × Vm) :=
  match vm.grab with
  | .error e => .error e
  | .ok (a, vm) =>
    match vm.grab with
    | .error e => .error e
    | .ok (b, vm) => .ok (a, b, vm)

/-- Three consecutive grabs, as in Python `a, b, c = g(), g(), g()`. -/
def Vm.grab3 (vm : Vm) : Except VmError (Nat × Nat × Nat × Vm) :=
  match vm.grab2 with
  | .error e => .error e
  | .ok (a, b, vm) =>
    match vm.grab with
    | .error e => .error e
    | .ok (c, vm) => .ok (a, b, c, vm)

/-- `Vm.val`: literals 0..32767 resolve to themselves, 32768..32775 read
the register cell, anything larger is invalid. -/
def Vm.val (vm : Vm) (i : Nat) : Except VmError Nat :=
  if i ≤ 32767 then .ok i
  else if i ≤ 32775 then
    match vm.memory.get? i with
    | none => .error VmError.indexError
    | some x => .ok x
  else .error (VmError.invalidNumber i)

/-- Python `self.memory[a] = x`: in-range assignment, IndexError
otherwise. -/
def Vm.memSet (vm : Vm) (a x : Nat) : Except VmError Vm :=
  if a < vm.memory.length then .ok { vm with memory := vm.memory.set a x }
  else .error VmError.indexError

/-- Python `self.stack.pop()`: take the last element, IndexError when the
list is empty. -/
def Vm.stackPop (vm : Vm) : Except VmError (Nat × Vm) :=
  match vm.stack.getLast? with
  | none => .error VmError.stackUnderflow
  | some top => .ok (top, { vm with stack := vm.stack.dropLast })

/-- `Vm.step`: decode one opcode and execute it.  NOTE: exactly as in the
source, there is no status guard here; only `run` checks the state. -/
def Vm.step (vm0 : Vm) : Except VmError Vm :=
  match vm0.grab with
  | .error e => .error e
  | .ok (op, vm) =>
    match op with
    | 0 => -- halt
      .ok { vm with state := State.HALTED }
    | 1 => -- set a b
      match vm.grab2 with
      | .error e => .error e
      | .ok (a, b, vm) =>
        match vm.val b with
        | .error e => .error e
        | .ok x => vm.memSet a x
    | 2 => -- push a
      match vm.grab with
      | .error e => .error e
      | .ok (a, vm) =>
        match vm.val a with
        | .error e => .error e
        | .ok x => .ok { vm with stack := vm.stack ++ [x] }
    | 3 => -- pop a; empty stack = error
      match vm.grab with
      | .error e => .error e
      | .ok (a, vm) =>
        match vm.stackPop with
        | .error e => .error e
        | .ok (top, vm) => vm.memSet a top
    | 4 => -- eq a b c
      match vm.grab3 with
      | .error e => .error e
      | .ok (a, b, c, vm) =>
        match vm.val b with
        | .error e => .error e
        | .ok xb =>
          match vm.val c with
          | .error e => .error e
          | .ok xc => vm.memSet a (if xb = xc then 1 else 0)
    | 5 => -- gt a b c
      match vm.grab3 with
      | .error e => .error e
      | .ok (a, b, c, vm) =>
        match vm.val b with
        | .error e => .error e
        | .ok xb =>
          match vm.val c with
          | .error e => .error e
          | .ok xc => vm.memSet a (if xb > xc then 1 else 0)
    | 6 => -- jmp a
      match vm.grab with
      | .error e => .error e
      | .ok (a, vm) =>
        match vm.val a with
        | .error e => .error e
        | .ok x => .ok { vm with ip := x }
    | 7 => -- jt a b
      match vm.grab2 with
      | .error e => .error e
      | .ok (a, b, vm) =>
        match vm.val a with
        | .error e => .error e
        | .ok xa =>
          if xa ≠ 0 then
            match vm.val b with
            | .error e => .error e
            | .ok xb => .ok { vm with ip := xb }
          else .ok vm
    | 8 => -- jf a b
      match vm.grab2 with
      | .error e => .error e
      | .ok (a, b, vm) =>
        match vm.val a with
        | .error e => .error e
        | .ok xa =>
          if xa = 0 then
            match vm.val b with
            | .error e => .error e
            | .ok xb => .ok { vm with ip := xb }
          else .ok vm
    | 9 => -- add a b c
      match vm.grab3 with
      | .error e => .error e
      | .ok (a, b, c, vm) =>
        match vm.val b with
        | .error e => .error e
        | .ok xb =>
          match vm.val c with
          | .error e => .error e
          | .ok xc => vm.memSet a ((xb + xc) % 32768)
    | 10 => -- mult a b c
      match vm.grab3 with
      | .error e => .error e
      | .ok (a, b, c, vm) =>
        match vm.val b with
        | .error e => .error e
        | .ok xb =>
          match vm.val c with
          | .error e => .error e
          | .ok xc => vm.memSet a ((xb * xc) % 32768)
    | 11 => -- mod a b c; Python % raises ZeroDivisionError on zero
      match vm.grab3 with
      | .error e => .error e
      | .ok (a, b, c, vm) =>
        match vm.val b with
        | .error e => .error e
        | .ok xb =>
          match vm.val c with
          | .error e => .error e
          | .ok xc =>
            if xc = 0 then .error VmError.zeroDivisionError
            else vm.memSet a (xb % xc)
    | 12 => -- and a b c
      match vm.grab3 with
      | .error e => .error e
      | .ok (a, b, c, vm) =>
        match vm.val b with
        | .error e => .error e
        | .ok xb =>
          match vm.val c with
          | .error e => .error e
          | .ok xc => vm.memSet a (xb &&& xc)
    | 13 => -- or a b c
      match vm.grab3 with
      | .error e => .error e
      | .ok (a, b, c, vm) =>
        match vm.val b with
        | .error e => .error e
        | .ok xb =>
          match vm.val c with
          | .error e => .error e
          | .ok xc => vm.memSet a (xb ||| xc)
    | 14 => -- not a b; Python ((1 << 15) - 1) & ~x = mask ^^^ (x &&& mask)
      match vm.grab2 with
      | .error e => .error e
      | .ok (a, b, vm) =>
        match vm.val b with
        | .error e => .error e
        | .ok xb => vm.memSet a ((1 <<< 15 - 1) ^^^ (xb &&& (1 <<< 15 - 1)))
    | 15 => -- rmem a b
      match vm.grab2 with
      | .error e => .error e
      | .ok (a, b, vm) =>
        match vm.val b with
        | .error e => .error e
        | .ok xb =>
          match vm.memory.get? xb with
          | none => .error VmError.indexError
          | some y => vm.memSet a y
    | 16 => -- wmem a b; RHS is evaluated before the target index
      match vm.grab2 with
      | .error e => .error e
      | .ok (a, b, vm) =>
        match vm.val b with
        | .error e => .error e
        | .ok xb =>
          match vm.val a with
          | .error e => .error e
          | .ok xa => vm.memSet xa xb
    | 17 => -- call a
      match vm.grab with
      | .error e => .error e
      | .ok (a, vm) =>
        let vm := { vm with stack := vm.stack ++ [vm.ip] }
        match vm.val a with
        | .error e => .error e
        | .ok x => .ok { vm with ip := x }
    | 18 => -- ret; empty stack = halt
      match vm.stack.getLast? with
      | none => .ok { vm with state := State.HALTED }
      | some top => .ok { vm with stack := vm.stack.dropLast, ip := top }
    | 19 => -- out a
      match vm.grab with
      | .error e => .error e
      | .ok (a, vm) =>
        match vm.val a with
        | .error e => .error e
        | .ok x => .ok { vm with writer := vm.writer ++ [x] }
    | 20 => -- in a; empty reader: block and rewind ip by 2
      match vm.grab with
      | .error e => .error e
      | .ok (a, vm) =>
        match vm.reader.get? vm.readerPos with
        | none => .ok { vm with state := State.INPUT_BLOCKED, ip := vm.ip - 2 }
        | some ch =>
          let vm := { vm with readerPos := vm.readerPos + 1 }
          vm.memSet a ch
    | 21 => -- noop
      .ok vm
    | _ => -- any other opcode value: Python match falls through silently
      .ok vm

/-- `Vm.run`: step while READY.  Fuel bounds the number of iterations;
`none` means the fuel ran out with the machine still READY. -/
def Vm.run (fuel : Nat) (vm : Vm) : Option (Except VmError Vm) :=
  if vm.state ≠ State.READY then some (.ok vm)
  else
    match fuel with
    | 0 => none
    | fuel + 1 =>
      match vm.step with
      | .error e => some (.error e)
      | .ok vm2 => Vm.run fuel vm2

/-! ## Room parser (src/vm.py, parse_room)

Python strings are modelled as their character sequences, so every
string operation below is structural recursion over `List Char` with the
exact Python semantics noted on each definition. -/

/-- Python str: a sequence of characters. -/
abbrev PyStr := List Char

/-- The distinct Python failure sites of parse_room: the two explicit
asserts, the paragraph-count assert False, the footer assert, the
IndexError on a missing second paragraph, and the ValueError when the
second paragraph does not unpack into exactly two lines. -/
inductive ParseError where
  | firstLineNotBlank
  | missingParagraph
  | titleUnpack
  | titleFormat
  | paragraphCount
  | footer
  deriving DecidableEq, Repr

structure Room where
  title : PyStr
  text : PyStr
  interests : List PyStr
  exits : List PyStr
  deriving DecidableEq, Repr

/-- Python s.split("\n\n"): greedy left-to-right scan, adjacent
separators produce empty pieces, the empty string gives one empty
piece. -/
def splitParagraphs : PyStr → List PyStr
  | [] => [[]]
  | '\n' :: '\n' :: rest => [] :: splitParagraphs rest
  | c :: rest =>
    match splitParagraphs rest with
    | [] => [[c]]
    | p :: ps => (c :: p) :: ps

/-- Python s.split("\n"). -/
def splitNewline : PyStr → List PyStr
  | [] => [[]]
  | '\n' :: rest => [] :: splitNewline rest
  | c :: rest =>
    match splitNewline rest with
    | [] => [[c]]
    | p :: ps => (c :: p) :: ps

/-- Python str.splitlines for text whose only line separator is the
newline: split on the newline and drop the empty piece a trailing
newline leaves behind. -/
def splitlines (s : PyStr) : List PyStr :=
  if (splitNewline s).getLast? = some [] then (splitNewline s).dropLast
  else splitNewline s

/-- Python str.startswith. -/
def startsWithC : PyStr → PyStr → Bool
  | _, [] => true
  | [], _ :: _ => false
  | c :: s, p :: ps => c = p && startsWithC s ps

/-- Python str.endswith. -/
def endsWithC (s p : PyStr) : Bool :=
  startsWithC s.reverse p.reverse

/-- Python str.removeprefix: drop the prefix when present, else leave
the string unchanged. -/
def removePre (s p : PyStr) : PyStr :=
  if startsWithC s p then s.drop p.length else s

/-- Python str.removesuffix: drop the suffix when present, else leave
the string unchanged. -/
def removeSuf (s p : PyStr) : PyStr :=
  if endsWithC s p then s.take (s.length - p.length) else s

/-- parse_room: split into paragraphs on blank lines, require a blank
first paragraph, unpack the second paragraph into a title line and a
body line, require only that the title line starts with two equals
signs, strip the decorations that are present, read the interests/exits
lists from the 4- or 5-paragraph shape, and require the literal
footer. -/
def parse_room (s : PyStr) : Except ParseError Room :=
  if (splitParagraphs s).headI ≠ [] then .error ParseError.firstLineNotBlank
  else
    match (splitParagraphs s).get? 1 with
    | none => .error ParseError.missingParagraph
    | some p1 =>
      match splitlines p1 with
      | [title0, text] =>
        if ¬ startsWithC title0 "==".toList then .error ParseError.titleFormat
        else if (splitParagraphs s).length = 5 then
          if (splitParagraphs s).getLast? ≠ some "What do you do?\n".toList then
            .error ParseError.footer
          else
            .ok ⟨removeSuf (removePre title0 "== ".toList) " ==".toList, text,
              ((splitlines ((splitParagraphs s).getD 2 [])).tail).map
                (fun line => line.drop 2),
              ((splitlines ((splitParagraphs s).getD 3 [])).tail).map
                (fun line => line.drop 2)⟩
        else if (splitParagraphs s).length = 4 then
          if (splitParagraphs s).getLast? ≠ some "What do you do?\n".toList then
            .error ParseError.footer
          else
            .ok ⟨removeSuf (removePre title0 "== ".toList) " ==".toList, text, [],
              ((splitlines ((splitParagraphs s).getD 2 [])).tail).map
                (fun line => line.drop 2)⟩
        else .error ParseError.paragraphCount
      | _ => .error ParseError.titleUnpack

/-! ## State-space explorer (src/vm.py, main, lines 238-270)

The traversal discipline of the breadth-first loop.  Computing the exits
of a node and the successor dump of an exit both go through Vm.run,
which is an unbounded while loop, so the loop is stated over an arbitrary
exits function and successor function; every theorem below holds for all
of them, in particular for the concrete restore/input/run/dump pipeline
of the source. -/

/-- Explorer state: the visited set (the Python set is kept here as the
list of elements in insertion order), the FIFO frontier queue, and a
ghost audit trail recording every dump ever placed in the queue. -/
structure ExpState where
  seen : List Dump
  q : List Dump
  trace : List Dump

/-- The inner for-loop of the explorer: for each exit other than
"ladder", compute the successor dump; skip it when it is already in the
visited set, otherwise add it to the set and enqueue it. -/
def exploreNode (exits : Dump → List PyStr) (succ : Dump → PyStr → Dump)
    (st : ExpState) (d : Dump) : ExpState :=
  (exits d).foldl
    (fun st ex =>
      if ex = "ladder".toList then st
      else
        let d2 := succ d ex
        if d2 ∈ st.seen then st
        else { seen := st.seen ++ [d2], q := st.q ++ [d2],
               trace := st.trace ++ [d2] })
    st

/-- The outer while-loop of the explorer, with fuel: dequeue the head of
the frontier and process its exits. -/
def explore (exits : Dump → List PyStr) (succ : Dump → PyStr → Dump) :
    Nat → ExpState → ExpState
  | 0, st => st
  | fuel + 1, st =>
    match st.q with
    | [] => st
    | d :: rest =>
      explore exits succ fuel (exploreNode exits succ { st with q := rest } d)

/-- seen and q in main are both seeded with the starting dump, which is
thereby placed in the queue once. -/
def exploreInit (d0 : Dump) : ExpState :=
  { seen := [d0], q := [d0], trace := [d0] }

/-! ## Decode lemmas -/

theorem Vm.grab_ok {vm w : Vm} {a : Nat} (h : vm.grab = .ok (a, w)) :
    w = { vm with ip := vm.ip + 1 } ∧ a ≤ 32775 ∧ vm.memory.get? vm.ip = some a := by
  unfold Vm.grab at h
  split at h
  · cases h
  · rename_i r hg
    split at h
    · rename_i hr
      simp only [Except.ok.injEq, Prod.mk.injEq] at h
      obtain ⟨rfl, rfl⟩ := h
      exact ⟨rfl, hr, hg⟩
    · cases h

theorem Vm.grab2_ok {vm w : Vm} {a b : Nat} (h : vm.grab2 = .ok (a, b, w)) :
    w = { vm with ip := vm.ip + 2 } ∧ a ≤ 32775 ∧ b ≤ 32775 := by
  unfold Vm.grab2 at h
  split at h
  · cases h
  · rename_i a1 w1 hg1
    obtain ⟨rfl, ha1, -⟩ := Vm.grab_ok hg1
    split at h
    · cases h
    · rename_i b1 w2 hg2
      obtain ⟨rfl, hb1, -⟩ := Vm.grab_ok hg2
      simp only [Except.ok.injEq, Prod.mk.injEq] at h
      obtain ⟨rfl, rfl, rfl⟩ := h
      exact ⟨rfl, ha1, hb1⟩

theorem Vm.grab3_ok {vm w : Vm} {a b c : Nat} (h : vm.grab3 = .ok (a, b, c, w)) :
    w = { vm with ip := vm.ip + 3 } ∧ a ≤ 32775 ∧ b ≤ 32775 ∧ c ≤ 32775 := by
  unfold Vm.grab3 at h
  split at h
  · cases h
  · rename_i a1 b1 w1 hg1
    obtain ⟨rfl, ha1, hb1⟩ := Vm.grab2_ok hg1
    split at h
    · cases h
    · rename_i c1 w2 hg2
      obtain ⟨rfl, hc1, -⟩ := Vm.grab_ok hg2
      simp only [Except.ok.injEq, Prod.mk.injEq] at h
      obtain ⟨rfl, rfl, rfl, rfl⟩ := h
      exact ⟨rfl, ha1, hb1, hc1⟩

theorem Vm.val_ok_le {vm : Vm} {i x : Nat}
    (hm : ∀ y ∈ vm.memory, y ≤ 32767) (h : vm.val i = .ok x) : x ≤ 32767 := by
  unfold Vm.val at h
  split at h
  · rename_i h1
    cases h
    exact h1
  · split at h
    · split at h
      · cases h
      · rename_i y hy
        cases h
        exact hm _ (List.get?_mem hy)
    · cases h

theorem Vm.memSet_ok {vm w : Vm} {a x : Nat} (h : vm.memSet a x = .ok w) :
    w = { vm with memory := vm.memory.set a x } := by
  unfold Vm.memSet at h
  split at h
  · cases h
    rfl
  · cases h

theorem mem_set_le {m : List Nat} {a x : Nat}
    (hm : ∀ y ∈ m, y ≤ 32767) (hx : x ≤ 32767) :
    ∀ y ∈ m.set a x, y ≤ 32767 := by
  intro y hy
  rcases List.mem_or_eq_of_mem_set hy with hmem | rfl
  · exact hm y hmem
  · exact hx

theorem Vm.grab_eval {vm : Vm} {a : Nat}
    (hget : vm.memory.get? vm.ip = some a) (ha : a ≤ 32775) :
    vm.grab = .ok (a, { vm with ip := vm.ip + 1 }) := by
  simp only [List.get?_eq_getElem?] at hget
  simp [Vm.grab, hget, ha]

theorem Vm.stackPop_ok {vm w : Vm} {t : Nat} (h : vm.stackPop = .ok (t, w)) :
    w = { vm with stack := vm.stack.dropLast } ∧ vm.stack.getLast? = some t := by
  unfold Vm.stackPop at h
  split at h
  · cases h
  · rename_i top hl
    simp only [Except.ok.injEq, Prod.mk.injEq] at h
    obtain ⟨rfl, rfl⟩ := h
    exact ⟨rfl, hl⟩

/-- C5 (amended): loading performs no range validation, so a loaded cell
can exceed 32767; what does hold is one-step preservation with the stack
and pending input constrained as well: when every memory cell, every
stack value, and every pending input character code is at most 32767,
every memory cell after a successful step is still at most 32767. -/
theorem Vm.step_mem_le {vm vm2 : Vm}
    (hm : ∀ x ∈ vm.memory, x ≤ 32767)
    (hs : ∀ x ∈ vm.stack, x ≤ 32767)
    (hr : ∀ x ∈ vm.reader, x ≤ 32767)
    (h : vm.step = .ok vm2) :
    ∀ x ∈ vm2.memory, x ≤ 32767 := by
  unfold Vm.step at h
  split at h
  · cases h
  · rename_i op vm1 hg
    obtain ⟨rfl, hop, -⟩ := Vm.grab_ok hg
    split at h
    -- 0: halt
    · injection h with h
      subst h
      exact hm
    -- 1: set
    · split at h
      · cases h
      · rename_i a b w hg2
        obtain ⟨rfl, -, -⟩ := Vm.grab2_ok hg2
        split at h
        · cases h
        · rename_i x hv
          obtain rfl := Vm.memSet_ok h
          exact mem_set_le hm (Vm.val_ok_le hm hv)
    -- 2: push
    · split at h
      · cases h
      · rename_i a w hg1
        obtain ⟨rfl, -, -⟩ := Vm.grab_ok hg1
        split at h
        · cases h
        · rename_i x hv
          injection h with h
          subst h
          exact hm
    -- 3: pop
    · split at h
      · cases h
      · rename_i a w hg1
        obtain ⟨rfl, -, -⟩ := Vm.grab_ok hg1
        split at h
        · cases h
        · rename_i top w2 hsp
          obtain ⟨rfl, htop⟩ := Vm.stackPop_ok hsp
          obtain rfl := Vm.memSet_ok h
          exact mem_set_le hm (hs top (List.mem_of_getLast?_eq_some htop))
    -- 4: eq
    · split at h
      · cases h
      · rename_i a b c w hg3
        obtain ⟨rfl, -, -, -⟩ := Vm.grab3_ok hg3
        split at h
        · cases h
        · rename_i xb hvb
          split at h
          · cases h
          · rename_i xc hvc
            obtain rfl := Vm.memSet_ok h
            exact mem_set_le hm (by split <;> omega)
    -- 5: gt
    · split at h
      · cases h
      · rename_i a b c w hg3
        obtain ⟨rfl, -, -, -⟩ := Vm.grab3_ok hg3
        split at h
        · cases h
        · rename_i xb hvb
          split at h
          · cases h
          · rename_i xc hvc
            obtain rfl := Vm.memSet_ok h
            exact mem_set_le hm (by split <;> omega)
    -- 6: jmp
    · split at h
      · cases h
      · rename_i a w hg1
        obtain ⟨rfl, -, -⟩ := Vm.grab_ok hg1
        split at h
        · cases h
        · rename_i x hv
          injection h with h
          subst h
          exact hm
    -- 7: jt
    · split at h
      · cases h
      · rename_i a b w hg2
        obtain ⟨rfl, -, -⟩ := Vm.grab2_ok hg2
        split at h
        · cases h
        · rename_i xa hva
          split at h
          · split at h
            · cases h
            · rename_i xb hvb
              injection h with h
              subst h
              exact hm
          · injection h with h
            subst h
            exact hm
    -- 8: jf
    · split at h
      · cases h
      · rename_i a b w hg2
        obtain ⟨rfl, -, -⟩ := Vm.grab2_ok hg2
        split at h
        · cases h
        · rename_i xa hva
          split at h
          · split at h
            · cases h
            · rename_i xb hvb
              injection h with h
              subst h
              exact hm
          · injection h with h
            subst h
            exact hm
    -- 9: add
    · split at h
      · cases h
      · rename_i a b c w hg3
        obtain ⟨rfl, -, -, -⟩ := Vm.grab3_ok hg3
        split at h
        · cases h
        · rename_i xb hvb
          split at h
          · cases h
          · rename_i xc hvc
            obtain rfl := Vm.memSet_ok h
            exact mem_set_le hm (by omega)
    -- 10: mult
    · split at h
      · cases h
      · rename_i a b c w hg3
        obtain ⟨rfl, -, -, -⟩ := Vm.grab3_ok hg3
        split at h
        · cases h
        · rename_i xb hvb
          split at h
          · cases h
          · rename_i xc hvc
            obtain rfl := Vm.memSet_ok h
            exact mem_set_le hm (by omega)
    -- 11: mod
    · split at h
      · cases h
      · rename_i a b c w hg3
        obtain ⟨rfl, -, -, -⟩ := Vm.grab3_ok hg3
        split at h
        · cases h
        · rename_i xb hvb
          split at h
          · cases h
          · rename_i xc hvc
            split at h
            · cases h
            · obtain rfl := Vm.memSet_ok h
              exact mem_set_le hm
                (le_trans (Nat.mod_le xb xc) (Vm.val_ok_le hm hvb))
    -- 12: and
    · split at h
      · cases h
      · rename_i a b c w hg3
        obtain ⟨rfl, -, -, -⟩ := Vm.grab3_ok hg3
        split at h
        · cases h
        · rename_i xb hvb
          split at h
          · cases h
          · rename_i xc hvc
            obtain rfl := Vm.memSet_ok h
            exact mem_set_le hm (le_trans Nat.and_le_left (Vm.val_ok_le hm hvb))
    -- 13: or
    · split at h
      · cases h
      · rename_i a b c w hg3
        obtain ⟨rfl, -, -, -⟩ := Vm.grab3_ok hg3
        split at h
        · cases h
        · rename_i xb hvb
          split at h
          · cases h
          · rename_i xc hvc
            obtain rfl := Vm.memSet_ok h
            have hb := Vm.val_ok_le hm hvb
            have hc := Vm.val_ok_le hm hvc
            have hor : xb ||| xc < 2 ^ 15 :=
              Nat.or_lt_two_pow (by norm_num; omega) (by norm_num; omega)
            exact mem_set_le hm (by norm_num at hor; omega)
    -- 14: not
    · split at h
      · cases h
      · rename_i a b w hg2
        obtain ⟨rfl, -, -⟩ := Vm.grab2_ok hg2
        split at h
        · cases h
        · rename_i xb hvb
          obtain rfl := Vm.memSet_ok h
          have hand : xb &&& (1 <<< 15 - 1) < 2 ^ 15 := by
            have := @Nat.and_le_right xb (1 <<< 15 - 1)
            norm_num [Nat.shiftLeft_eq] at this ⊢
            omega
          have hxor : (1 <<< 15 - 1) ^^^ (xb &&& (1 <<< 15 - 1)) < 2 ^ 15 :=
            Nat.xor_lt_two_pow (by norm_num [Nat.shiftLeft_eq]) hand
          exact mem_set_le hm (by norm_num at hxor; omega)
    -- 15: rmem
    · split at h
      · cases h
      · rename_i a b w hg2
        obtain ⟨rfl, -, -⟩ := Vm.grab2_ok hg2
        split at h
        · cases h
        · rename_i xb hvb
          split at h
          · cases h
          · rename_i y hy
            obtain rfl := Vm.memSet_ok h
            exact mem_set_le hm (hm y (List.get?_mem hy))
    -- 16: wmem
    · split at h
      · cases h
      · rename_i a b w hg2
        obtain ⟨rfl, -, -⟩ := Vm.grab2_ok hg2
        split at h
        · cases h
        · rename_i xb hvb
          split at h
          · cases h
          · rename_i xa hva
            obtain rfl := Vm.memSet_ok h
            exact mem_set_le hm (Vm.val_ok_le hm hvb)
    -- 17: call
    · split at h
      · cases h
      · rename_i a w hg1
        obtain ⟨rfl, -, -⟩ := Vm.grab_ok hg1
        dsimp only [] at h
        split at h
        · cases h
        · rename_i x hv
          injection h with h
          subst h
          exact hm
    -- 18: ret
    · split at h
      · injection h with h
        subst h
        exact hm
      · rename_i top hl
        injection h with h
        subst h
        exact hm
    -- 19: out
    · split at h
      · cases h
      · rename_i a w hg1
        obtain ⟨rfl, -, -⟩ := Vm.grab_ok hg1
        split at h
        · cases h
        · rename_i x hv
          injection h with h
          subst h
          exact hm
    -- 20: in
    · split at h
      · cases h
      · rename_i a w hg1
        obtain ⟨rfl, -, -⟩ := Vm.grab_ok hg1
        split at h
        · injection h with h
          subst h
          exact hm
        · rename_i ch hch
          obtain rfl := Vm.memSet_ok h
          exact mem_set_le hm (hr ch (List.get?_mem hch))
    -- 21: noop
    · injection h with h
      subst h
      exact hm
    · -- default: unknown opcode falls through
      injection h with h
      subst h
      exact hm

/-! ## Claim C5: the loading half and the counterexample -/

/-- C5 counterexample: the two-byte binary ff ff loads as the single word
65535, so immediately after loading a program binary a memory cell can
exceed 32767; the claimed load-time invariant is false. -/
theorem c5_load_unvalidated_counterexample :
    (Vm.from_file [255, 255]).memory.getD 0 0 = 65535 ∧ ¬(65535 ≤ 32767) := by
  refine ⟨rfl, by decide⟩

/-- C5 witness: the amended preservation statement at a concrete machine
executing set r3, 7, instantiated at the written cell. -/
theorem c5_witness :
    (Vm.mk0 [1, 3, 7, 0] [] 0).step =
      .ok { memory := [1, 3, 7, 7], stack := [], ip := 3, state := State.READY,
            reader := [], readerPos := 0, writer := [] } ∧ 7 ≤ 32767 :=
  ⟨rfl,
    @Vm.step_mem_le (Vm.mk0 [1, 3, 7, 0] [] 0) _
      (by decide) (by decide) (by decide) rfl 7 (by decide)⟩

/-! ## Claim C1: input on a halted machine -/

/-- A machine that has just executed halt (opcode 0 at address 1). -/
def haltedVm : Vm :=
  { memory := [0, 0], stack := [], ip := 1, state := State.HALTED,
    reader := [], readerPos := 0, writer := [] }

/-- C1 counterexample: supplying input to a Halted machine flips its
status to READY, and running it afterwards executes another instruction
(ip moves from 1 to 2), so Halted is not terminal under the public
operations and input does not restrict the READY transition to Blocked
machines. -/
theorem c1_halted_revived_counterexample :
    haltedVm.state = State.HALTED ∧
    (haltedVm.input [108]).state = State.READY ∧
    Vm.run 5 (haltedVm.input [108]) =
      some (.ok { haltedVm with state := State.HALTED, ip := 2, reader := [108] }) := by
  exact ⟨rfl, rfl, rfl⟩

/-- C1 (amended): Vm.input appends the characters (when the read cursor
is at the end of the buffer) and unconditionally sets the status to
READY, whatever the previous status was - including HALTED, which is
therefore not terminal.  Memory, stack and ip are untouched. -/
theorem c1_input_unconditional_ready (vm : Vm) (s : List Nat) :
    (vm.input s).state = State.READY ∧
    (vm.input s).memory = vm.memory ∧
    (vm.input s).stack = vm.stack ∧
    (vm.input s).ip = vm.ip ∧
    (vm.readerPos = vm.reader.length → (vm.input s).reader = vm.reader ++ s) := by
  refine ⟨rfl, rfl, rfl, rfl, fun hpos => ?_⟩
  simp [Vm.input, hpos, List.drop_of_length_le]

/-- C1 witness: the amended statement at a concrete halted machine whose
reader is exhausted. -/
theorem c1_witness :
    (haltedVm.input [108]).state = State.READY ∧
    (haltedVm.input [108]).memory = haltedVm.memory ∧
    (haltedVm.input [108]).stack = haltedVm.stack ∧
    (haltedVm.input [108]).ip = haltedVm.ip ∧
    (haltedVm.input [108]).reader = haltedVm.reader ++ [108] := by
  obtain ⟨h1, h2, h3, h4, h5⟩ := c1_input_unconditional_ready haltedVm [108]
  exact ⟨h1, h2, h3, h4, h5 rfl⟩

/-! ## Claim C2: step is not guarded by the status -/

/-- A halted machine whose next instruction is noop. -/
def haltedNoopVm : Vm :=
  { memory := [21, 0], stack := [], ip := 0, state := State.HALTED,
    reader := [], readerPos := 0, writer := [] }

/-- C2 counterexample: step on a machine whose status is HALTED is not a
no-op - it decodes and executes the instruction under ip, advancing ip
from 0 to 1.  The status guard claimed for step does not exist. -/
theorem c2_step_unguarded_counterexample :
    haltedNoopVm.state = State.HALTED ∧
    haltedNoopVm.step = .ok { haltedNoopVm with ip := 1 } ∧
    ({ haltedNoopVm with ip := 1 } : Vm) ≠ haltedNoopVm := by
  refine ⟨rfl, rfl, ?_⟩
  decide

/-- C2 (amended): the status guard lives in run, not step: for every
machine whose status is HALTED or INPUT_BLOCKED (that is, not READY),
run executes no instruction and returns the machine unchanged, for every
fuel bound. -/
theorem c2_run_noop_when_not_ready (fuel : Nat) (vm : Vm)
    (h : vm.state ≠ State.READY) :
    Vm.run fuel vm = some (.ok vm) := by
  cases fuel <;> simp [Vm.run, h]

/-- C2 witness: run is a no-op on a concrete halted machine. -/
theorem c2_witness : Vm.run 3 haltedNoopVm = some (.ok haltedNoopVm) :=
  c2_run_noop_when_not_ready 3 haltedNoopVm (by decide)

/-! ## Claim C4: pop on an empty stack errors, ret on an empty stack halts -/

/-- C4: executing pop (opcode 3) with an empty stack surfaces the
distinguishable stack-underflow error, while executing ret (opcode 18)
with an empty stack raises nothing: it halts the machine, the only other
change being the ip moving past the ret opcode itself. -/
theorem c4_pop_errors_ret_halts :
    (∀ (vm : Vm) (a : Nat), vm.memory.get? vm.ip = some 3 →
      vm.memory.get? (vm.ip + 1) = some a → a ≤ 32775 → vm.stack = [] →
      vm.step = .error VmError.stackUnderflow) ∧
    (∀ vm : Vm, vm.memory.get? vm.ip = some 18 → vm.stack = [] →
      vm.step = .ok { vm with state := State.HALTED, ip := vm.ip + 1 }) := by
  constructor
  · intro vm a h3 ha hale hst
    obtain ⟨mem, stk, ip0, stt, rd, rp, wr⟩ := vm
    simp only at h3 ha hst
    subst hst
    have hg := @Vm.grab_eval ⟨mem, [], ip0, stt, rd, rp, wr⟩ _ h3 (by norm_num)
    have hg2 := @Vm.grab_eval ⟨mem, [], ip0 + 1, stt, rd, rp, wr⟩ _ ha hale
    simp [Vm.step, hg, hg2, Vm.stackPop]
  · intro vm h18 hst
    obtain ⟨mem, stk, ip0, stt, rd, rp, wr⟩ := vm
    simp only at h18 hst
    subst hst
    have hg := @Vm.grab_eval ⟨mem, [], ip0, stt, rd, rp, wr⟩ _ h18 (by norm_num)
    simp [Vm.step, hg]

/-- C4 witness: both halves at concrete machines with empty stacks. -/
theorem c4_witness :
    (Vm.mk0 [3, 1] [] 0).step = .error VmError.stackUnderflow ∧
    (Vm.mk0 [18] [] 0).step =
      .ok { Vm.mk0 [18] [] 0 with state := State.HALTED, ip := 1 } := by
  obtain ⟨h1, h2⟩ := c4_pop_errors_ret_halts
  exact ⟨h1 (Vm.mk0 [3, 1] [] 0) 1 rfl rfl (by norm_num) rfl,
         h2 (Vm.mk0 [18] [] 0) rfl rfl⟩

/-! ## Claim C6: dump / from_dump round trip and structural equality -/

/-- C6: restoring from a captured dump yields a machine whose memory,
stack and ip equal the original's, with status READY and empty
reader/writer; and the dumps of any two machines agreeing on memory,
stack and ip are equal regardless of every other component of the two
machines. -/
theorem c6_dump_restore (vm vm2 : Vm)
    (hmem : vm.memory = vm2.memory) (hst : vm.stack = vm2.stack)
    (hip : vm.ip = vm2.ip) :
    (Vm.from_dump vm.dump).memory = vm.memory ∧
    (Vm.from_dump vm.dump).stack = vm.stack ∧
    (Vm.from_dump vm.dump).ip = vm.ip ∧
    (Vm.from_dump vm.dump).state = State.READY ∧
    (Vm.from_dump vm.dump).reader = [] ∧
    (Vm.from_dump vm.dump).readerPos = 0 ∧
    (Vm.from_dump vm.dump).writer = [] ∧
    vm.dump = vm2.dump := by
  refine ⟨rfl, rfl, rfl, rfl, rfl, rfl, rfl, ?_⟩
  simp [Vm.dump, hmem, hst, hip]

/-- A machine with the same memory, stack and ip as haltedVm but produced
differently: different status and non-empty buffers. -/
def haltedVmTwin : Vm :=
  { memory := [0, 0], stack := [], ip := 1, state := State.INPUT_BLOCKED,
    reader := [110, 111], readerPos := 1, writer := [63] }

/-- C6 witness: the round trip and dump equality at two concretely
different machines agreeing on memory, stack and ip. -/
theorem c6_witness :
    (Vm.from_dump haltedVm.dump).memory = haltedVm.memory ∧
    (Vm.from_dump haltedVm.dump).stack = haltedVm.stack ∧
    (Vm.from_dump haltedVm.dump).ip = haltedVm.ip ∧
    (Vm.from_dump haltedVm.dump).state = State.READY ∧
    (Vm.from_dump haltedVm.dump).reader = [] ∧
    (Vm.from_dump haltedVm.dump).readerPos = 0 ∧
    (Vm.from_dump haltedVm.dump).writer = [] ∧
    haltedVm.dump = haltedVmTwin.dump :=
  c6_dump_restore haltedVm haltedVmTwin rfl rfl rfl

/-! ## Claim C9: unknown opcodes fall through silently -/

/-- C9: for a READY machine whose next raw opcode is any value from 22 up
to the decode limit 32775, step succeeds and only consumes the opcode
slot: ip advances by one and every other component (memory, stack,
status, reader, writer) is unchanged. -/
theorem c9_unknown_opcode_noop (vm : Vm) (op : Nat)
    (hready : vm.state = State.READY)
    (hget : vm.memory.get? vm.ip = some op)
    (h22 : 22 ≤ op) (hle : op ≤ 32775) :
    vm.step = .ok { vm with ip := vm.ip + 1 } := by
  obtain ⟨k, rfl⟩ := Nat.exists_eq_add_of_le' h22
  have hg := Vm.grab_eval hget hle
  simp only [Vm.step, hg]

/-- C9 witness: opcode 1234 at a concrete READY machine. -/
theorem c9_witness :
    (Vm.mk0 [1234] [] 0).step = .ok { Vm.mk0 [1234] [] 0 with ip := 1 } :=
  c9_unknown_opcode_noop (Vm.mk0 [1234] [] 0) 1234 rfl rfl
    (by norm_num) (by norm_num)

/-! ## Claim C10: mod with a zero divisor -/

/-- Argument of a successful val is within the decodable range. -/
theorem Vm.val_ok_arg_le {vm : Vm} {i x : Nat} (h : vm.val i = .ok x) :
    i ≤ 32775 := by
  unfold Vm.val at h
  split at h
  · omega
  · split at h
    · assumption
    · cases h

/-- C10: executing mod (opcode 11) whose divisor operand resolves to 0
surfaces the unguarded division-by-zero error, a constructor distinct
from both the invalid-number (InvalidOperand) and the stack-underflow
failure classes. -/
theorem c10_mod_zero_divides (vm : Vm) (a b0 c0 xb : Nat)
    (h11 : vm.memory.get? vm.ip = some 11)
    (hA : vm.memory.get? (vm.ip + 1) = some a) (haLe : a ≤ 32775)
    (hB : vm.memory.get? (vm.ip + 2) = some b0)
    (hC : vm.memory.get? (vm.ip + 3) = some c0)
    (hvb : vm.val b0 = .ok xb)
    (hvc : vm.val c0 = .ok 0) :
    vm.step = .error VmError.zeroDivisionError ∧
    VmError.zeroDivisionError ≠ VmError.stackUnderflow ∧
    ∀ n : Nat, VmError.zeroDivisionError ≠ VmError.invalidNumber n := by
  refine ⟨?_, by decide, fun n => by simp⟩
  have hbLe := Vm.val_ok_arg_le hvb
  have hcLe := Vm.val_ok_arg_le hvc
  have hg := Vm.grab_eval h11 (by norm_num)
  have hgA := @Vm.grab_eval { vm with ip := vm.ip + 1 } _ hA haLe
  have hgB := @Vm.grab_eval { vm with ip := vm.ip + 2 } _ hB hbLe
  have hgC := @Vm.grab_eval { vm with ip := vm.ip + 3 } _ hC hcLe
  have hvb2 : Vm.val { vm with ip := vm.ip + 4 } b0 = .ok xb := hvb
  have hvc2 : Vm.val { vm with ip := vm.ip + 4 } c0 = .ok 0 := hvc
  simp [Vm.step, Vm.grab3, Vm.grab2, hg, hgA, hgB, hgC, hvb2, hvc2]

/-- C10 witness: mod r3, 5, 0 at address 0. -/
theorem c10_witness :
    (Vm.mk0 [11, 3, 5, 0] [] 0).step = .error VmError.zeroDivisionError ∧
    VmError.zeroDivisionError ≠ VmError.stackUnderflow ∧
    VmError.zeroDivisionError ≠ VmError.invalidNumber 0 := by
  have h := c10_mod_zero_divides (Vm.mk0 [11, 3, 5, 0] [] 0) 3 5 0 5
    rfl rfl (by norm_num) rfl rfl rfl rfl
  exact ⟨h.1, h.2.1, h.2.2 0⟩

/-! ## Claim C3: in on an empty input queue rewinds ip and blocks -/

/-- C3: on a READY machine whose next instruction is in a (opcode 20 then
operand a) and whose input queue is exhausted, step only switches the
status to INPUT_BLOCKED: ip is first advanced by 2 during decoding and
then decremented by exactly 2, so it equals its pre-instruction value;
and once a character is supplied, the next step re-decodes that same
in a instruction and executes it (storing the character at a and moving
ip past the instruction) instead of skipping it. -/
theorem c3_in_blocks_then_resumes (vm : Vm) (a : Nat)
    (hready : vm.state = State.READY)
    (h20 : vm.memory.get? vm.ip = some 20)
    (ha : vm.memory.get? (vm.ip + 1) = some a)
    (hale : a ≤ 32775)
    (hempty : vm.readerPos = vm.reader.length) :
    vm.step = .ok { vm with state := State.INPUT_BLOCKED } ∧
    ∀ c : Nat, a < vm.memory.length →
      (({ vm with state := State.INPUT_BLOCKED } : Vm).input [c]).step =
        .ok { vm with memory := vm.memory.set a c, ip := vm.ip + 2,
                      state := State.READY, reader := vm.reader ++ [c],
                      readerPos := vm.readerPos + 1 } := by
  obtain ⟨mem, stk, ip0, stt, rd, rp, wr⟩ := vm
  simp only at hready h20 ha hempty
  subst hready
  subst hempty
  constructor
  · have hg := @Vm.grab_eval
      ⟨mem, stk, ip0, State.READY, rd, rd.length, wr⟩ _ h20 (by norm_num)
    have hgA := @Vm.grab_eval
      ⟨mem, stk, ip0 + 1, State.READY, rd, rd.length, wr⟩ _ ha hale
    have hnone : rd.get? rd.length = none := List.get?_eq_none.mpr le_rfl
    simp [Vm.step, hg, hgA, hnone]
  · intro c hlen
    have hin : ((⟨mem, stk, ip0, State.INPUT_BLOCKED, rd, rd.length, wr⟩
        : Vm).input [c]) =
        ⟨mem, stk, ip0, State.READY, rd ++ [c], rd.length, wr⟩ := by
      simp [Vm.input, List.drop_of_length_le]
    rw [hin]
    have hg := @Vm.grab_eval
      ⟨mem, stk, ip0, State.READY, rd ++ [c], rd.length, wr⟩ _ h20
      (by norm_num)
    have hgA := @Vm.grab_eval
      ⟨mem, stk, ip0 + 1, State.READY, rd ++ [c], rd.length, wr⟩ _ ha hale
    have hsome : (rd ++ [c]).get? rd.length = some c := List.get?_concat_length rd c
    simp only at hlen
    simp [Vm.step, hg, hgA, hsome, Vm.memSet, hlen]

/-- C3 witness: in r3 at address 0 with an empty reader, then character
104 supplied. -/
theorem c3_witness :
    (Vm.mk0 [20, 3, 9, 9] [] 0).step =
      .ok { Vm.mk0 [20, 3, 9, 9] [] 0 with state := State.INPUT_BLOCKED } ∧
    (({ Vm.mk0 [20, 3, 9, 9] [] 0 with state := State.INPUT_BLOCKED } : Vm).input
        [104]).step =
      .ok { Vm.mk0 [20, 3, 9, 9] [] 0 with memory := [20, 3, 9, 104], ip := 2,
                                           state := State.READY, reader := [104],
                                           readerPos := 1 } := by
  obtain ⟨h1, h2⟩ := c3_in_blocks_then_resumes (Vm.mk0 [20, 3, 9, 9] [] 0) 3
    rfl rfl rfl (by norm_num) rfl
  exact ⟨h1, h2 104 (by decide)⟩

/-! ## Claim C7: the title check of parse_room -/

/-- A look output whose title line has the leading delimiter but no
trailing one. -/
def roomNoTrailing : PyStr :=
  "\n\n== Chasm\nA deep chasm.\n\nExits:\n- north\n- south\n\nWhat do you do?\n".toList

/-- C7 counterexample: a second-paragraph title line that is not wrapped
in the full delimiter (the trailing one is absent) is NOT rejected:
parse_room accepts it and returns the text after the leading delimiter,
refuting the claim that every such input fails with a malformed-output
error. -/
theorem c7_no_trailing_delimiter_accepted :
    parse_room roomNoTrailing =
      .ok { title := "Chasm".toList, text := "A deep chasm.".toList,
            interests := [], exits := ["north".toList, "south".toList] } ∧
    endsWithC "== Chasm".toList " ==".toList = false := by
  exact ⟨rfl, rfl⟩

/-- C7 (amended): parse_room rejects every input deviating from the
paragraph shape - blank first paragraph, four or five paragraphs, exact
footer, exactly two lines in the second paragraph - but the title check
requires only the leading two equals signs; on success the returned
title is the title line with a leading delimiter removed when present
and a trailing delimiter removed when present, and the body is the
second line verbatim. -/
theorem c7_parse_room_success (s : PyStr) (r : Room)
    (h : parse_room s = .ok r) :
    (splitParagraphs s).headI = [] ∧
    ((splitParagraphs s).length = 4 ∨ (splitParagraphs s).length = 5) ∧
    (splitParagraphs s).getLast? = some "What do you do?\n".toList ∧
    ∃ p1 tl tx, (splitParagraphs s).get? 1 = some p1 ∧
      splitlines p1 = [tl, tx] ∧
      startsWithC tl "==".toList = true ∧
      r.title = removeSuf (removePre tl "== ".toList) " ==".toList ∧
      r.text = tx := by
  unfold parse_room at h
  split at h
  · cases h
  · rename_i hblank
    split at h
    · cases h
    · rename_i p1 hp1
      split at h
      · rename_i tl tx heq
        split at h
        · cases h
        · rename_i hsw
          split at h
          · rename_i h5
            split at h
            · cases h
            · rename_i hfoot
              injection h with h
              subst h
              refine ⟨not_not.mp hblank, Or.inr h5, not_not.mp hfoot,
                p1, tl, tx, hp1, heq, not_not.mp hsw, ?_, ?_⟩
              · dsimp only
              · dsimp only
          · rename_i h5
            split at h
            · rename_i h4
              split at h
              · cases h
              · rename_i hfoot
                injection h with h
                subst h
                refine ⟨not_not.mp hblank, Or.inl h4, not_not.mp hfoot,
                  p1, tl, tx, hp1, heq, not_not.mp hsw, ?_, ?_⟩
                · dsimp only
                · dsimp only
            · cases h
      · cases h

/-- A fully delimited look output. -/
def roomFoyer : PyStr :=
  "\n\n== Foyer ==\nAn empty room.\n\nExits:\n- north\n\nWhat do you do?\n".toList

/-- C7 witness: the amended statement at a concrete well-formed look
output, with the extracted paragraph, title line and body line all
computed explicitly. -/
theorem c7_witness :
    (splitParagraphs roomFoyer).headI = [] ∧
    ((splitParagraphs roomFoyer).length = 4 ∨
      (splitParagraphs roomFoyer).length = 5) ∧
    (splitParagraphs roomFoyer).getLast? = some "What do you do?\n".toList ∧
    (splitParagraphs roomFoyer).get? 1 =
      some "== Foyer ==\nAn empty room.".toList ∧
    splitlines "== Foyer ==\nAn empty room.".toList =
      ["== Foyer ==".toList, "An empty room.".toList] ∧
    startsWithC "== Foyer ==".toList "==".toList = true ∧
    ({ title := "Foyer".toList, text := "An empty room.".toList,
       interests := [], exits := ["north".toList] } : Room).title =
      removeSuf (removePre "== Foyer ==".toList "== ".toList) " ==".toList ∧
    ({ title := "Foyer".toList, text := "An empty room.".toList,
       interests := [], exits := ["north".toList] } : Room).text =
      "An empty room.".toList := by
  obtain ⟨h1, h2, h3, p1, tl, tx, hp1, hsplit, hsw, htitle, htext⟩ :=
    c7_parse_room_success roomFoyer
      { title := "Foyer".toList, text := "An empty room.".toList,
        interests := [], exits := ["north".toList] } rfl
  obtain rfl : p1 = "== Foyer ==\nAn empty room.".toList := by
    have h0 : (splitParagraphs roomFoyer).get? 1 =
        some "== Foyer ==\nAn empty room.".toList := rfl
    exact Option.some.inj (hp1.symm.trans h0)
  obtain ⟨rfl, rfl⟩ : tl = "== Foyer ==".toList ∧ tx = "An empty room.".toList := by
    have h0 : splitlines "== Foyer ==\nAn empty room.".toList =
        ["== Foyer ==".toList, "An empty room.".toList] := rfl
    have h4 := hsplit.symm.trans h0
    simp only [List.cons.injEq, and_true] at h4
    exact h4
  exact ⟨h1, h2, h3, hp1, hsplit, hsw, htitle, htext⟩

/-! ## Claim C8: explorer queue discipline -/

/-- Explorer loop invariant: the visited set lists exactly the dumps
ever enqueued (the audit trail), that trail has no duplicates, and every
dump sitting in the frontier queue is in the visited set. -/
def ExpInv (st : ExpState) : Prop :=
  st.seen = st.trace ∧ st.trace.Nodup ∧ ∀ d ∈ st.q, d ∈ st.seen

theorem exploreNode_inv (exits : Dump → List PyStr)
    (succ : Dump → PyStr → Dump) (st : ExpState) (d : Dump)
    (h : ExpInv st) : ExpInv (exploreNode exits succ st d) := by
  unfold exploreNode
  generalize exits d = l
  induction l generalizing st with
  | nil => exact h
  | cons ex rest ih =>
    simp only [List.foldl_cons]
    apply ih
    by_cases hlad : ex = "ladder".toList
    · simpa [hlad] using h
    · rw [if_neg hlad]
      by_cases hseen : succ d ex ∈ st.seen
      · simpa [hseen] using h
      · rw [if_neg hseen]
        obtain ⟨h1, h2, h3⟩ := h
        refine ⟨by rw [h1], ?_, ?_⟩
        · have hnotin : succ d ex ∉ st.trace := by rw [← h1]; exact hseen
          simp [List.nodup_append, h2, hnotin]
        · intro x hx
          rcases List.mem_append.mp hx with hx | hx
          · exact List.mem_append_left _ (h3 x hx)
          · exact List.mem_append_right _ hx

theorem explore_inv (exits : Dump → List PyStr) (succ : Dump → PyStr → Dump)
    (fuel : Nat) (st : ExpState) (h : ExpInv st) :
    ExpInv (explore exits succ fuel st) := by
  induction fuel generalizing st with
  | zero => exact h
  | succ n ih =>
    obtain ⟨seen, q, trace⟩ := st
    obtain ⟨h1, h2, h3⟩ := h
    cases q with
    | nil => exact ⟨h1, h2, h3⟩
    | cons d rest =>
      apply ih
      apply exploreNode_inv
      refine ⟨h1, h2, fun x hx => h3 x (List.mem_cons_of_mem d hx)⟩

/-- C8: throughout the explorer loop - for every fuel bound, hence after
every number of iterations - every snapshot in the FIFO frontier queue
is also in the visited set, the visited set consists exactly of the
snapshots ever enqueued, and no snapshot is ever enqueued twice (the
enqueue trail is duplicate-free): a successor dump already seen is
skipped rather than enqueued.  This holds for every exits function and
every successor function, in particular for the concrete
restore/input/run/dump pipeline of main. -/
theorem c8_explorer_never_enqueues_twice (exits : Dump → List PyStr)
    (succ : Dump → PyStr → Dump) (fuel : Nat) (d0 : Dump) :
    (∀ d ∈ (explore exits succ fuel (exploreInit d0)).q,
        d ∈ (explore exits succ fuel (exploreInit d0)).seen) ∧
    (explore exits succ fuel (exploreInit d0)).seen =
      (explore exits succ fuel (exploreInit d0)).trace ∧
    (explore exits succ fuel (exploreInit d0)).trace.Nodup := by
  have h := explore_inv exits succ fuel (exploreInit d0)
    ⟨rfl, by simp [exploreInit], by simp [exploreInit]⟩
  exact ⟨h.2.2, h.1, h.2.1⟩
